import Mathlib

/-!
Verification of the olmOCR-style benchmark scoring engine
(`bench/benchmark.py` and its collaborators) against its specification.

The repeat loop of `process_test`, the per-candidate error handling of
`evaluate_candidate`, and the reporting-time aggregation of `main` are
embedded as pure Lean functions; Python `float` arithmetic on pass
ratios is modelled exactly by `ℚ` (all ratios here are ratios of small
machine integers).
-/

namespace Bench

/-- Outcome of handling one repeat `.md` file for one test inside
`process_test` (`bench/benchmark.py` lines 106-123): reading the file may
raise (`readError`), else `test.run` may raise (`runError`), else it
returns a pass (`runPass`) or a fail with an explanation (`runFail`). -/
inductive RepeatOutcome where
  | readError (msg : String)
  | runPass
  | runFail (expl : String)
  | runError (msg : String)
deriving DecidableEq

/-- The local state mutated by the repeat loop of `process_test`
(`bench/benchmark.py` lines 103-105, plus the `local_errors` list from
line 81). -/
structure RepeatLoopState where
  repeat_passes : Nat
  num_repeats : Nat
  explanations : List String
  local_errors : List String
deriving DecidableEq

/-- One iteration of the repeat loop of `process_test`
(`bench/benchmark.py` lines 106-123): `num_repeats` is incremented before
the file is read, a read failure `continue`s after recording a local
error, a failing run records its explanation, and a raised run exception
records both a local error and `str(e)` as an explanation. -/
def processRepeat (s : RepeatLoopState) (o : RepeatOutcome) : RepeatLoopState :=
  let s := { s with num_repeats := s.num_repeats + 1 }
  match o with
  | .readError m => { s with local_errors := s.local_errors ++ ["Error reading: " ++ m] }
  | .runPass => { s with repeat_passes := s.repeat_passes + 1 }
  | .runFail e => { s with explanations := s.explanations ++ [e] }
  | .runError m =>
      { s with
        local_errors := s.local_errors ++ ["Error running test: " ++ m]
        explanations := s.explanations ++ [m] }

/-- The whole repeat loop of `process_test` over the page's repeat files,
starting from `repeat_passes = 0`, `num_repeats = 0` and empty lists
(`bench/benchmark.py` lines 103-123). -/
def runRepeats (outcomes : List RepeatOutcome) : RepeatLoopState :=
  outcomes.foldl processRepeat ⟨0, 0, [], []⟩

/-- `test_avg = repeat_passes / num_repeats if num_repeats > 0 else 0.0`
(`bench/benchmark.py` line 125). -/
def test_avg (s : RepeatLoopState) : ℚ :=
  if s.num_repeats > 0 then (s.repeat_passes : ℚ) / (s.num_repeats : ℚ) else 0

/-- `final_passed = test_avg > 0.5` (`bench/benchmark.py` line 126). -/
def final_passed (s : RepeatLoopState) : Bool :=
  decide (test_avg s > 1 / 2)

/-- `final_explanation = explanations[0] if explanations else
"All repeats passed"` (`bench/benchmark.py` line 127). -/
def final_explanation (s : RepeatLoopState) : String :=
  s.explanations.headD "All repeats passed"

/-- The explanations that the repeat loop of `process_test` collects, in
processing order, stated directly as a recursive function for comparison
with the loop embedding: a failing run contributes its explanation, a run
exception contributes `str(e)`, a passing run and an unreadable file
contribute nothing (`bench/benchmark.py` lines 106-123). -/
def failMsgs : List RepeatOutcome → List String
  | [] => []
  | .runFail e :: r => e :: failMsgs r
  | .runError m :: r => m :: failMsgs r
  | .readError _ :: r => failMsgs r
  | .runPass :: r => failMsgs r

theorem foldl_processRepeat_num_repeats (l : List RepeatOutcome) :
    ∀ s : RepeatLoopState, (l.foldl processRepeat s).num_repeats = s.num_repeats + l.length := by
  induction l with
  | nil => intro s; simp
  | cons o l ih =>
      intro s
      rw [List.foldl_cons, ih]
      cases o <;> simp [processRepeat] <;> omega

theorem foldl_processRepeat_repeat_passes (l : List RepeatOutcome) :
    ∀ s : RepeatLoopState,
      (l.foldl processRepeat s).repeat_passes =
        s.repeat_passes + l.countP (· = RepeatOutcome.runPass) := by
  induction l with
  | nil => intro s; simp
  | cons o l ih =>
      intro s
      rw [List.foldl_cons, ih]
      cases o <;> (simp [processRepeat, List.countP_cons]; try omega)

theorem runRepeats_num_repeats (l : List RepeatOutcome) :
    (runRepeats l).num_repeats = l.length := by
  simpa using foldl_processRepeat_num_repeats l ⟨0, 0, [], []⟩

theorem runRepeats_repeat_passes (l : List RepeatOutcome) :
    (runRepeats l).repeat_passes = l.countP (· = RepeatOutcome.runPass) := by
  simpa using foldl_processRepeat_repeat_passes l ⟨0, 0, [], []⟩

/-- Update of one key of an insertion-ordered dictionary, as Python
`d[k] = ...`: the first entry with key `k` is updated by `f`; a missing
key is appended at the end with value `init`. -/
def bumpAssoc {β : Type} (k : String) (f : β → β) (init : β) :
    List (String × β) → List (String × β)
  | [] => [(k, init)]
  | (k', b) :: rest =>
      if k' = k then (k', f b) :: rest else (k', b) :: bumpAssoc k f init rest

/-- Lookup in an insertion-ordered dictionary. -/
def dlookup {β : Type} (k : String) : List (String × β) → Option β
  | [] => none
  | (k', b) :: rest => if k' = k then some b else dlookup k rest

/-- A fold building an insertion-ordered dictionary from a list of items,
each item updating the entry at its own key, as the Python summary loops
of `main` do over `all_tests`. -/
def dictFold {α β : Type} (key : α → String) (upd : α → β → β) (init : α → β)
    (items : List α) (m : List (String × β)) : List (String × β) :=
  items.foldl (fun m t => bumpAssoc (key t) (upd t) (init t) m) m

/-- A test as the final summary loop of `main` sees it: the name of the
`.jsonl` file it came from (`test_to_jsonl.get(test.id, "unknown")`)
paired with the verdict found for it in the candidate's `test_results`
(`none` when no result is found). -/
abbrev SummaryTest : Type := String × Option Bool

/-- The `passed` increment of the final summary loop for one test
(`bench/benchmark.py` lines 360-372): 1 exactly when the candidate has no
candidate-level errors and the verdict found is a pass. -/
def passInc (candidate_errors : List String) (t : SummaryTest) : Nat :=
  if candidate_errors = [] ∧ t.2 = some true then 1 else 0

/-- `jsonl_results` of the final summary of `main` (`bench/benchmark.py`
lines 350-372): per source-jsonl group, `total` counts every test of the
group and `passed` counts its passing verdicts (none when the candidate
has candidate-level errors). -/
def jsonl_results (candidate_errors : List String) (tests : List SummaryTest) :
    List (String × Nat × Nat) :=
  dictFold Prod.fst
    (fun t tp => (tp.1 + 1, tp.2 + passInc candidate_errors t))
    (fun t => (1, passInc candidate_errors t)) tests []

/-- `jsonl_pass_rates` of the final summary (`bench/benchmark.py` lines
375-379): one `passed / total` per jsonl group with `total > 0`. -/
def jsonl_pass_rates (m : List (String × Nat × Nat)) : List ℚ :=
  (m.filter (fun e => 0 < e.2.1)).map (fun e => (e.2.2 : ℚ) / (e.2.1 : ℚ))

/-- `new_overall_score = sum(jsonl_pass_rates) / len(jsonl_pass_rates) if
jsonl_pass_rates else 0.0` (`bench/benchmark.py` line 382). -/
def new_overall_score (m : List (String × Nat × Nat)) : ℚ :=
  if jsonl_pass_rates m = [] then 0
  else (jsonl_pass_rates m).sum / ((jsonl_pass_rates m).length : ℚ)

/-- Arithmetic mean of a list of rationals, `0` on the empty list. -/
def meanQ (l : List ℚ) : ℚ :=
  if l = [] then 0 else l.sum / (l.length : ℚ)

/-- The 0/1 values of the final verdicts of the tests of one jsonl group,
in order — the claim-side reading of "per-file score is the arithmetic
mean of 0/1 verdicts restricted to that file". -/
def fileVerdicts (tests : List SummaryTest) (g : String) : List ℚ :=
  (tests.filter (fun t => t.1 = g)).map (fun t => if t.2 = some true then (1 : ℚ) else 0)

/-- Number of tests of one jsonl group: the group's `total` counter. -/
def groupTotal (tests : List SummaryTest) (g : String) : Nat :=
  (tests.filter (fun t => t.1 = g)).length

/-- Number of passing verdicts of one jsonl group when the candidate has
candidate-level errors `candidate_errors`: the group's `passed` counter. -/
def groupPassed (candidate_errors : List String) (tests : List SummaryTest) (g : String) : Nat :=
  (tests.filter (fun t => t.1 = g)).countP
    (fun t => decide (candidate_errors = [] ∧ t.2 = some true))

/-- A concrete run: group `a.jsonl` contributes one passing test, group
`b.jsonl` three failing ones. -/
def C2ex : List SummaryTest :=
  [("a.jsonl", some true), ("b.jsonl", some false), ("b.jsonl", some false),
    ("b.jsonl", some false)]

/-- A test as the result-collection loop of `evaluate_candidate` sees it:
its `type` string paired with the outcomes of its page's repeat files. -/
abbrev KindTest : Type := String × List RepeatOutcome

/-- `test_type_breakdown` of `evaluate_candidate` (`bench/benchmark.py`
lines 145-153): per test type, the list of that type's per-test average
pass ratios `test_avg`, in processing order. -/
def test_type_breakdown (tests : List KindTest) : List (String × List ℚ) :=
  dictFold Prod.fst (fun t l => l ++ [test_avg (runRepeats t.2)])
    (fun t => [test_avg (runRepeats t.2)]) tests []

/-- The per-kind average value that `main` prints (`bench/benchmark.py`
line 400): `sum(scores) / len(scores) * 100 if scores else 0.0`. -/
def ttype_avg (scores : List ℚ) : ℚ :=
  if scores = [] then 0 else scores.sum / (scores.length : ℚ) * 100

/-- The per-kind mean of 0/1 final verdicts — the claim-side alternative
the printed breakdown is *not* computing. -/
def kind_verdict_rate (tests : List KindTest) (ty : String) : ℚ :=
  meanQ ((tests.filter (fun t => t.1 = ty)).map
    (fun t => if final_passed (runRepeats t.2) then (1 : ℚ) else 0))

/-- A concrete candidate run: a single `order` test whose three repeats
pass twice. -/
def C10ex : List KindTest :=
  [("order", [RepeatOutcome.runPass, RepeatOutcome.runPass, RepeatOutcome.runFail "x"])]

/-- A test as `evaluate_candidate` sees it: its id, its source-jsonl
group (`test_to_jsonl`), its pdf and page, and the outcomes of running it
on its page's repeat files in order (`bench/benchmark.py` lines 80-137). -/
structure BenchTest where
  id : String
  jsonl : String
  pdf : String
  page : Nat
  outcomes : List RepeatOutcome

/-- A repeat output file of a candidate: the pdf basename its
`{md_base}_pg{page}_repeat{n}.md` name starts with (line 66) and the page
in its `_pg{page}_` component (line 94). -/
abbrev MdFile : Type := String × Nat

/-- The repeat files of one pdf page: the pdf's files from
`pdf_to_md_files` (line 66-67) filtered to the test's page (line 94). -/
def page_md_files (files : List MdFile) (pdf : String) (page : Nat) : List MdFile :=
  (files.filter (fun f => f.1 = pdf)).filter (fun f => f.2 = page)

/-- The per-pdf discovery errors of `evaluate_candidate`
(`bench/benchmark.py` lines 64-74): one error for every pdf with no
matching `.md` repeat files, unless `force` is set. -/
def pdf_missing_errors (force : Bool) (pdf_basenames : List String) (files : List MdFile) :
    List String :=
  (pdf_basenames.filter
      (fun p => decide (files.filter (fun f => f.1 = p) = []) && !force)).map
    (fun p => "Candidate is missing MD repeats for " ++ p)

/-- The `local_errors` of `process_test` for one test (`bench/benchmark.py`
lines 94-123): a missing-page error when the test's page has no repeat
files (recorded whether or not `force` is set), else the read/run errors
of the repeat loop. -/
def process_test_errors (files : List MdFile) (t : BenchTest) : List String :=
  if page_md_files files t.pdf t.page = [] then
    ["Candidate is missing MD repeats for " ++ t.pdf ++ " page " ++ toString t.page]
  else (runRepeats t.outcomes).local_errors

/-- The `candidate_errors` that `evaluate_candidate` returns
(`bench/benchmark.py` lines 53-77 and 154-159): the per-pdf discovery
errors alone when any exist (early return at line 77), else the
concatenation of every test's local errors. -/
def candidate_errors (force : Bool) (tests : List BenchTest) (pdf_basenames : List String)
    (files : List MdFile) : List String :=
  if pdf_missing_errors force pdf_basenames files = [] then
    (tests.map (process_test_errors files)).flatten
  else pdf_missing_errors force pdf_basenames files

/-- The overall score the final summary of `main` reports for one
candidate (`bench/benchmark.py` lines 348-385): `new_overall_score` over
the jsonl grouping of the tests, crediting a verdict only when the
candidate has no candidate-level errors (line 362). -/
def final_reported_score (force : Bool) (tests : List BenchTest)
    (pdf_basenames : List String) (files : List MdFile)
    (verdict : BenchTest → Option Bool) : ℚ :=
  new_overall_score
    (jsonl_results (candidate_errors force tests pdf_basenames files)
      (tests.map (fun t => (t.jsonl, verdict t))))

/-- A concrete test referencing page 1 of `doc.pdf`. -/
def C3test : BenchTest := ⟨"t1", "a.jsonl", "doc.pdf", 1, []⟩

/-- A concrete verdict assignment that passes every test. -/
def C3verdict : BenchTest → Option Bool := fun _ => some true

/-- The early checks of `main` (`bench/benchmark.py` lines 199-220), as
the sequence of `sys.exit(1)` guards before loading tests: the `pdfs/`
folder must exist, its recursive `*.pdf` glob must be nonempty, and the
assertion-set file list (the single `--dir` argument when it is a file,
else the `*.jsonl` glob of the input folder) must be nonempty; on success
the `.jsonl` files to load are returned, on failure the process exit
code. -/
def main_early_checks (pdf_folder_exists : Bool) (pdf_files : List String)
    (dir_is_file : Bool) (args_dir : String) (jsonl_glob : List String) :
    Except Nat (List String) :=
  if pdf_folder_exists = false then .error 1
  else if pdf_files = [] then .error 1
  else
    let jsonl_files := if dir_is_file then [args_dir] else jsonl_glob
    if jsonl_files = [] then .error 1
    else .ok jsonl_files

/-- An assertion as loaded by `load_tests`, restricted to the fields the
baseline synthesis of `main` reads. -/
structure LoadedTest where
  id : String
  pdf : String
  page : Nat
  type : String
deriving DecidableEq

/-- `BaselineTest(id=f"{pdf}_baseline", pdf=pdf, page=1, type="baseline")`
(`bench/benchmark.py` line 237). -/
def baselineTest (pdf : String) : LoadedTest :=
  ⟨pdf ++ "_baseline", pdf, 1, "baseline"⟩

/-- Overwriting dictionary store `test_to_jsonl[k] = v`. -/
def setAssoc (k v : String) (m : List (String × String)) : List (String × String) :=
  bumpAssoc k (fun _ => v) v m

/-- The baseline-synthesis loop of `main` (`bench/benchmark.py` lines
235-238): for each pdf with no baseline test among the tests collected so
far, append the synthesized baseline test and record `"baseline"` as its
id's provenance group. The state is `(all_tests, test_to_jsonl)`. -/
def add_baselines (pdf_basenames : List String)
    (st : List LoadedTest × List (String × String)) :
    List LoadedTest × List (String × String) :=
  pdf_basenames.foldl
    (fun st pdf =>
      if st.1.any (fun t => decide (t.pdf = pdf ∧ t.type = "baseline")) then st
      else (st.1 ++ [baselineTest pdf], setAssoc (pdf ++ "_baseline") "baseline" st.2))
    st

/-- The `--skip_baseline` filter of `main` (`bench/benchmark.py` lines
247-248), run after the baseline synthesis. -/
def apply_skip_baseline (skip : Bool) (tests : List LoadedTest) : List LoadedTest :=
  if skip then tests.filter (fun t => decide (t.type ≠ "baseline")) else tests

/-- The literal directory name `pdfs`, which is never a candidate. -/
def pdfsName : List Char := ['p', 'd', 'f', 's']

/-- `os.path.join(input_folder, entry)` with the POSIX separator
(`bench/benchmark.py` line 260); file names are modelled as `List Char`
so that path order is the lexicographic order Python sorts strings by. -/
def path_join (dir e : List Char) : List Char := dir ++ '/' :: e

/-- `os.path.basename`: everything after the last separator. -/
def os_basename (p : List Char) : List Char :=
  (p.reverse.takeWhile (fun c => c != '/')).reverse

/-- The candidate folders `main` evaluates, in their final order
(`bench/benchmark.py` lines 258-272, default branch with no
`--candidate`): the directory entries other than `pdfs`, joined to the
input folder, then sorted in place (`candidate_folders.sort()`). -/
def candidate_folders (dir : List Char) (isDir : List Char → Bool)
    (entries : List (List Char)) : List (List Char) :=
  ((entries.filter (fun e => isDir e && decide (e ≠ pdfsName))).map
      (path_join dir)).mergeSort (fun a b => decide (a ≤ b))

/-- The candidate names in the order the summary prints them
(`bench/benchmark.py` lines 278-279 and 348): `os.path.basename` of each
sorted candidate folder, in sorted-folder order. -/
def summary_candidate_names (dir : List Char) (isDir : List Char → Bool)
    (entries : List (List Char)) : List (List Char) :=
  (candidate_folders dir isDir entries).map os_basename

/-- The assertion kinds in the order the per-kind breakdown prints them:
`sorted(test_type_breakdown.keys())` (`bench/benchmark.py` line 398). -/
def displayed_kinds (tests : List KindTest) : List String :=
  ((test_type_breakdown tests).map Prod.fst).mergeSort (fun a b => decide (a ≤ b))

/-- Modelled from the spec: the Matching Engine (`bench/tests.py`) is not
present under `src/`, so the alignment primitive follows §4.1/§9 of the
specification — the classic dynamic-programming edit distance between two
character sequences minimizing substitutions, insertions and deletions. -/
def lev : List Char → List Char → Nat
  | [], ys => ys.length
  | x :: xs, [] => (x :: xs).length
  | x :: xs, y :: ys =>
      if x = y then lev xs ys
      else 1 + min (lev xs ys) (min (lev (x :: xs) ys) (lev xs (y :: ys)))
termination_by xs ys => xs.length + ys.length
decreasing_by all_goals (simp; try omega)

/-- All contiguous substrings of `t`: the initial segments of its
suffixes. -/
def substrs (t : List Char) : List (List Char) :=
  t.tails.flatMap List.inits

/-- Modelled from the spec: the `first_n`/`last_n` window restricting the
comparison to a prefix and/or suffix of the candidate text (§3, §4.1). -/
def window (first_n last_n : Option Nat) (s : List Char) : List Char :=
  let s1 := match first_n with
    | some n => s.take n
    | none => s
  match last_n with
    | some n => s1.drop (s1.length - n)
    | none => s1

/-- Modelled from the spec: case normalization applied to the compared
texts unless the assertion is case sensitive (§4.1). -/
def normalize (case_sensitive : Bool) (s : List Char) : List Char :=
  if case_sensitive then s else s.map Char.toLower

/-- Modelled from the spec: a presence assertion (§3). An empty `text` is
invalid and fails fast with a configuration error when the assertion is
created (§4.1), so the record carries the load-time invariant
`text ≠ []`. -/
structure PresenceAssertion where
  id : String
  pdf : String
  page : Nat
  text : List Char
  max_diffs : Nat
  case_sensitive : Bool
  first_n : Option Nat
  last_n : Option Nat
  text_ok : text ≠ []

/-- Modelled from the spec: `evaluate` for a presence assertion (§4.1) —
window and case-normalize the candidate text, case-normalize the
assertion text, and pass iff the minimal edit distance between the text
and a contiguous substring of the windowed candidate is at most
`max_diffs`; equivalently, iff some substring is within `max_diffs`. -/
def presence_eval (a : PresenceAssertion) (candidate : List Char) : Bool :=
  let t := normalize a.case_sensitive (window a.first_n a.last_n candidate)
  let p := normalize a.case_sensitive a.text
  (substrs t).any (fun s => lev p s ≤ a.max_diffs)

/-- A presence assertion whose `first_n` window is shorter than the
position of its text in the candidate. -/
def C5assert : PresenceAssertion :=
  ⟨"t", "doc.pdf", 1, ['b'], 0, true, some 1, none, by simp⟩

/-- A presence assertion with no window. -/
def C5plain : PresenceAssertion :=
  ⟨"t", "doc.pdf", 1, ['b'], 0, false, none, none, by simp⟩

end Bench

/-- Claim C1: for an assertion evaluated against `R ≥ 1` repeat files of
which `P` pass, the computed pass ratio `test_avg` equals `P / R` exactly,
the final verdict is `final_passed = (test_avg > 0.5)`, and in particular
1 of 2 passing repeats yields `final_passed = false` while 2 of 3 yields
`final_passed = true`. -/
theorem C1_pass_ratio_and_verdict (outcomes : List Bench.RepeatOutcome)
    (h : outcomes ≠ []) :
    Bench.test_avg (Bench.runRepeats outcomes) =
        (outcomes.countP (· = Bench.RepeatOutcome.runPass) : ℚ) / (outcomes.length : ℚ) ∧
      (Bench.final_passed (Bench.runRepeats outcomes) = true ↔
        (outcomes.countP (· = Bench.RepeatOutcome.runPass) : ℚ) / (outcomes.length : ℚ) > 1 / 2) ∧
      Bench.final_passed
          (Bench.runRepeats [Bench.RepeatOutcome.runPass, Bench.RepeatOutcome.runFail "x"]) =
        false ∧
      Bench.final_passed
          (Bench.runRepeats
            [Bench.RepeatOutcome.runPass, Bench.RepeatOutcome.runPass,
              Bench.RepeatOutcome.runFail "x"]) =
        true := by
  have hlen : outcomes.length > 0 := List.length_pos.mpr h
  have havg : Bench.test_avg (Bench.runRepeats outcomes) =
      (outcomes.countP (· = Bench.RepeatOutcome.runPass) : ℚ) / (outcomes.length : ℚ) := by
    rw [Bench.test_avg, Bench.runRepeats_num_repeats, Bench.runRepeats_repeat_passes, if_pos hlen]
  refine ⟨havg, ?_, ?_, ?_⟩
  · rw [Bench.final_passed, havg, decide_eq_true_iff]
  · rw [Bench.final_passed, decide_eq_false_iff_not]
    have : Bench.test_avg
        (Bench.runRepeats [Bench.RepeatOutcome.runPass, Bench.RepeatOutcome.runFail "x"]) =
        (1 : ℚ) / 2 := by
      rw [Bench.test_avg, Bench.runRepeats_num_repeats, Bench.runRepeats_repeat_passes]
      simp [List.countP_cons]
    rw [this]
    norm_num
  · rw [Bench.final_passed, decide_eq_true_iff]
    have : Bench.test_avg
        (Bench.runRepeats [Bench.RepeatOutcome.runPass, Bench.RepeatOutcome.runPass,
          Bench.RepeatOutcome.runFail "x"]) = (2 : ℚ) / 3 := by
      rw [Bench.test_avg, Bench.runRepeats_num_repeats, Bench.runRepeats_repeat_passes]
      simp [List.countP_cons]
    rw [this]
    norm_num

/-- Witness for C1 at a concrete input: three repeats of which two pass. -/
theorem C1_pass_ratio_and_verdict_witness :
    Bench.test_avg
        (Bench.runRepeats
          [Bench.RepeatOutcome.runPass, Bench.RepeatOutcome.runPass,
            Bench.RepeatOutcome.runFail "x"]) =
      (2 : ℚ) / 3 := by
  have h :=
    C1_pass_ratio_and_verdict
      [Bench.RepeatOutcome.runPass, Bench.RepeatOutcome.runPass, Bench.RepeatOutcome.runFail "x"]
      (by simp)
  have h1 := h.1
  rw [h1]
  simp [List.countP_cons]

theorem foldl_processRepeat_explanations (l : List Bench.RepeatOutcome) :
    ∀ s : Bench.RepeatLoopState,
      (l.foldl Bench.processRepeat s).explanations = s.explanations ++ Bench.failMsgs l := by
  induction l with
  | nil => intro s; simp [Bench.failMsgs]
  | cons o l ih =>
      intro s
      rw [List.foldl_cons, ih]
      cases o <;> simp [Bench.processRepeat, Bench.failMsgs]

theorem runRepeats_explanations (l : List Bench.RepeatOutcome) :
    (Bench.runRepeats l).explanations = Bench.failMsgs l := by
  simpa using foldl_processRepeat_explanations l ⟨0, 0, [], []⟩

/-- Claim C4: an unreadable repeat file (`readError`) or an exception
raised while running the test on one repeat (`runError`) is caught and
counted in the pass-ratio denominator
`num_repeats` and not in the numerator `repeat_passes`, the repeats after
it are still evaluated and counted, and every other assertion's result is
computed independently of it. -/
theorem C4_repeat_errors_counted_not_aborting (xs ys : List Bench.RepeatOutcome) (m : String)
    (tests1 tests2 : List (List Bench.RepeatOutcome)) :
    ((Bench.runRepeats (xs ++ Bench.RepeatOutcome.readError m :: ys)).num_repeats =
        xs.length + 1 + ys.length ∧
      (Bench.runRepeats (xs ++ Bench.RepeatOutcome.readError m :: ys)).repeat_passes =
        xs.countP (· = Bench.RepeatOutcome.runPass) + ys.countP (· = Bench.RepeatOutcome.runPass)) ∧
    ((Bench.runRepeats (xs ++ Bench.RepeatOutcome.runError m :: ys)).num_repeats =
        xs.length + 1 + ys.length ∧
      (Bench.runRepeats (xs ++ Bench.RepeatOutcome.runError m :: ys)).repeat_passes =
        xs.countP (· = Bench.RepeatOutcome.runPass) + ys.countP (· = Bench.RepeatOutcome.runPass)) ∧
    (tests1 ++ [xs ++ Bench.RepeatOutcome.readError m :: ys] ++ tests2).map Bench.runRepeats =
      tests1.map Bench.runRepeats ++
        [Bench.runRepeats (xs ++ Bench.RepeatOutcome.readError m :: ys)] ++
        tests2.map Bench.runRepeats := by
  refine ⟨⟨?_, ?_⟩, ⟨?_, ?_⟩, ?_⟩
  · rw [Bench.runRepeats_num_repeats]; simp; omega
  · rw [Bench.runRepeats_repeat_passes]; simp [List.countP_append, List.countP_cons]
  · rw [Bench.runRepeats_num_repeats]; simp; omega
  · rw [Bench.runRepeats_repeat_passes]; simp [List.countP_append, List.countP_cons]
  · simp

/-- Claim C6, counterexample: on a single passing repeat no repeat fails,
yet the stored explanation is not the literal string
`"all repeats passed"` (the code stores `"All repeats passed"`,
`bench/benchmark.py` line 127). -/
theorem C6_counterexample :
    (∀ o ∈ [Bench.RepeatOutcome.runPass], o = Bench.RepeatOutcome.runPass) ∧
      Bench.final_explanation (Bench.runRepeats [Bench.RepeatOutcome.runPass]) ≠
        "all repeats passed" := by
  constructor
  · simp
  · have h : Bench.final_explanation (Bench.runRepeats [Bench.RepeatOutcome.runPass]) =
        "All repeats passed" := by
      rw [Bench.final_explanation, runRepeats_explanations]
      simp [Bench.failMsgs]
    rw [h]
    decide

/-- Claim C6 as amended: the stored explanation is the first explanation
collected from the failing repeats, in processing order, where a failing
run contributes its explanation and a run exception contributes its
message but an unreadable repeat file contributes none; when no
explanation is collected it is the literal string `"All repeats passed"`
(capital A), as it is in particular when every repeat passes. -/
theorem C6_explanation_first_collected_failure (outcomes : List Bench.RepeatOutcome) :
    Bench.final_explanation (Bench.runRepeats outcomes) =
        (Bench.failMsgs outcomes).headD "All repeats passed" ∧
      Bench.final_explanation
          (Bench.runRepeats [Bench.RepeatOutcome.runPass, Bench.RepeatOutcome.runPass]) =
        "All repeats passed" := by
  constructor
  · rw [Bench.final_explanation, runRepeats_explanations]
  · rw [Bench.final_explanation, runRepeats_explanations]
    simp [Bench.failMsgs]

theorem dlookup_bumpAssoc_same {β : Type} (k : String) (f : β → β) (init : β)
    (m : List (String × β)) :
    Bench.dlookup k (Bench.bumpAssoc k f init m) = some ((Bench.dlookup k m).elim init f) := by
  induction m with
  | nil => simp [Bench.bumpAssoc, Bench.dlookup]
  | cons e rest ih =>
      obtain ⟨k', b⟩ := e
      by_cases h : k' = k
      · subst h
        simp [Bench.bumpAssoc, Bench.dlookup]
      · simp [Bench.bumpAssoc, Bench.dlookup, h, ih]

theorem dlookup_bumpAssoc_ne {β : Type} (k g : String) (f : β → β) (init : β)
    (m : List (String × β)) (h : k ≠ g) :
    Bench.dlookup g (Bench.bumpAssoc k f init m) = Bench.dlookup g m := by
  induction m with
  | nil => simp [Bench.bumpAssoc, Bench.dlookup, h]
  | cons e rest ih =>
      obtain ⟨k', b⟩ := e
      by_cases h' : k' = k
      · subst h'
        simp [Bench.bumpAssoc, Bench.dlookup, h]
      · simp [Bench.bumpAssoc, Bench.dlookup, h']
        by_cases h'' : k' = g <;> simp [h'', ih]

theorem dictFold_lookup {α β : Type} (key : α → String) (upd : α → β → β) (init : α → β)
    (items : List α) :
    ∀ (m : List (String × β)) (g : String),
      Bench.dlookup g (Bench.dictFold key upd init items m) =
        match Bench.dlookup g m, items.filter (fun t => key t = g) with
        | some b, l => some (l.foldl (fun b t => upd t b) b)
        | none, [] => none
        | none, t :: l => some (l.foldl (fun b t => upd t b) (init t)) := by
  induction items with
  | nil =>
      intro m g
      cases h : Bench.dlookup g m <;> simp [Bench.dictFold, h]
  | cons t ts ih =>
      intro m g
      have step : Bench.dictFold key upd init (t :: ts) m =
          Bench.dictFold key upd init ts (Bench.bumpAssoc (key t) (upd t) (init t) m) := rfl
      rw [step, ih]
      by_cases hk : key t = g
      · subst hk
        rw [dlookup_bumpAssoc_same]
        cases h : Bench.dlookup (key t) m <;> simp [List.filter_cons, h]
      · rw [dlookup_bumpAssoc_ne _ _ _ _ _ hk]
        cases h : Bench.dlookup g m <;> simp [List.filter_cons, hk, h]

theorem jsonl_foldl_pair (candidate_errors : List String) (l : List Bench.SummaryTest) :
    ∀ a b : Nat,
      l.foldl (fun tp t => (tp.1 + 1, tp.2 + Bench.passInc candidate_errors t)) (a, b) =
        (a + l.length,
          b + l.countP (fun t => decide (candidate_errors = [] ∧ t.2 = some true))) := by
  induction l with
  | nil => intro a b; simp
  | cons t ts ih =>
      intro a b
      rw [List.foldl_cons, ih, List.countP_cons]
      by_cases h : candidate_errors = [] ∧ t.2 = some true <;>
        simp [Bench.passInc, h] <;> omega

theorem jsonl_results_dlookup (candidate_errors : List String)
    (tests : List Bench.SummaryTest) (g : String) :
    Bench.dlookup g (Bench.jsonl_results candidate_errors tests) =
      if tests.filter (fun t => t.1 = g) = [] then none
      else
        some (Bench.groupTotal tests g, Bench.groupPassed candidate_errors tests g) := by
  rw [Bench.jsonl_results, dictFold_lookup]
  have hnone : Bench.dlookup g ([] : List (String × Nat × Nat)) = none := rfl
  rw [hnone]
  cases h : tests.filter (fun t => t.1 = g) with
  | nil => simp [h, Bench.groupTotal, Bench.groupPassed]
  | cons t l =>
      simp only []
      rw [jsonl_foldl_pair]
      have : Bench.passInc candidate_errors t =
          if candidate_errors = [] ∧ t.2 = some true then 1 else 0 := rfl
      simp [Bench.groupTotal, Bench.groupPassed, h, List.countP_cons, Bench.passInc]
      constructor
      · omega
      · by_cases hp : candidate_errors = [] ∧ t.2 = some true <;> simp [hp] <;> omega

theorem keys_bumpAssoc {β : Type} (k : String) (f : β → β) (init : β)
    (m : List (String × β)) :
    (Bench.bumpAssoc k f init m).map Prod.fst =
      if (Bench.dlookup k m).isSome then m.map Prod.fst else m.map Prod.fst ++ [k] := by
  induction m with
  | nil => simp [Bench.bumpAssoc, Bench.dlookup]
  | cons e rest ih =>
      obtain ⟨k', b⟩ := e
      by_cases h : k' = k
      · subst h
        simp [Bench.bumpAssoc, Bench.dlookup]
      · simp only [Bench.bumpAssoc, Bench.dlookup, if_neg h, List.map_cons, ih]
        by_cases h2 : (Bench.dlookup k rest).isSome <;> simp [h2]

theorem dlookup_eq_none_iff {β : Type} (k : String) (m : List (String × β)) :
    Bench.dlookup k m = none ↔ k ∉ m.map Prod.fst := by
  induction m with
  | nil => simp [Bench.dlookup]
  | cons e rest ih =>
      obtain ⟨k', b⟩ := e
      by_cases h : k' = k
      · subst h
        simp [Bench.dlookup]
      · simp [Bench.dlookup, h, ih, Ne.symm h]

theorem nodup_keys_dictFold {α β : Type} (key : α → String) (upd : α → β → β)
    (init : α → β) (items : List α) :
    ∀ m : List (String × β), (m.map Prod.fst).Nodup →
      ((Bench.dictFold key upd init items m).map Prod.fst).Nodup := by
  induction items with
  | nil => intro m hm; exact hm
  | cons t ts ih =>
      intro m hm
      have step : Bench.dictFold key upd init (t :: ts) m =
          Bench.dictFold key upd init ts (Bench.bumpAssoc (key t) (upd t) (init t) m) := rfl
      rw [step]
      apply ih
      rw [keys_bumpAssoc]
      by_cases h : (Bench.dlookup (key t) m).isSome
      · simpa [h] using hm
      · have hk : key t ∉ m.map Prod.fst := by
          rw [← dlookup_eq_none_iff]
          cases hh : Bench.dlookup (key t) m
          · rfl
          · simp [hh] at h
        simp [h, List.nodup_append, hm, hk]

theorem dlookup_of_mem_nodup {β : Type} {k : String} {b : β} {m : List (String × β)}
    (hm : (m.map Prod.fst).Nodup) (hmem : (k, b) ∈ m) :
    Bench.dlookup k m = some b := by
  induction m with
  | nil => simp at hmem
  | cons e rest ih =>
      obtain ⟨k', b'⟩ := e
      rcases List.mem_cons.mp hmem with h | h
      · obtain ⟨h1, h2⟩ : k = k' ∧ b = b' := by simpa using h
        subst h1
        simp [Bench.dlookup, ← h2]
      · have hm' : k' ∉ rest.map Prod.fst ∧ (rest.map Prod.fst).Nodup := by
          simpa using hm
        by_cases hk : k' = k
        · subst hk
          exact absurd (List.mem_map.mpr ⟨(k', b), h, rfl⟩) hm'.1
        · simp only [Bench.dlookup, if_neg hk]
          exact ih hm'.2 h

theorem sum_indicator (l : List Bench.SummaryTest) :
    (l.map (fun t => if t.2 = some true then (1 : ℚ) else 0)).sum =
      (l.countP (fun t => decide (t.2 = some true)) : ℚ) := by
  induction l with
  | nil => simp
  | cons t ts ih =>
      rw [List.map_cons, List.sum_cons, ih, List.countP_cons]
      by_cases h : t.2 = some true
      · simp [h]
        ring
      · simp [h]

theorem jsonl_entry_char (tests : List Bench.SummaryTest) (g : String) (t p : Nat)
    (hmem : (g, t, p) ∈ Bench.jsonl_results [] tests) :
    t = Bench.groupTotal tests g ∧ 0 < t ∧
      (p : ℚ) / (t : ℚ) = Bench.meanQ (Bench.fileVerdicts tests g) := by
  have hnodup : ((Bench.jsonl_results [] tests).map Prod.fst).Nodup :=
    nodup_keys_dictFold _ _ _ tests [] (by simp)
  have hlook := dlookup_of_mem_nodup hnodup hmem
  rw [Bench.jsonl_results] at hlook
  rw [← Bench.jsonl_results] at hlook
  rw [jsonl_results_dlookup] at hlook
  by_cases hf : tests.filter (fun x => x.1 = g) = []
  · rw [if_pos hf] at hlook
    exact absurd hlook (by simp)
  · rw [if_neg hf] at hlook
    have hpair : Bench.groupTotal tests g = t ∧ Bench.groupPassed [] tests g = p := by
      have := Option.some.inj hlook
      exact ⟨congrArg Prod.fst this, congrArg Prod.snd this⟩
    obtain ⟨hT, hP⟩ := hpair
    have hTpos : 0 < t := by
      rw [← hT, Bench.groupTotal]
      exact List.length_pos.mpr hf
    refine ⟨hT.symm, hTpos, ?_⟩
    have hfv : Bench.fileVerdicts tests g ≠ [] := by
      rw [Bench.fileVerdicts]
      simp only [ne_eq, List.map_eq_nil_iff]
      exact hf
    rw [Bench.meanQ, if_neg hfv, Bench.fileVerdicts, sum_indicator, List.length_map]
    have hcnt : (tests.filter (fun x => x.1 = g)).countP
        (fun x => decide (x.2 = some true)) = p := by
      rw [← hP, Bench.groupPassed]
      exact (List.countP_congr (fun a _ => by simp)).symm
    rw [hcnt, ← hT, Bench.groupTotal]

/-- Claim C2: the reported candidate overall score is the arithmetic mean
of per-jsonl-file scores, where each per-file score `passed/total` equals
the arithmetic mean of the 0/1 final verdicts of the tests of that file;
on the concrete run `C2ex` this mean of per-file means differs from the
global mean over all tests, so the overall score is not the global mean
and depends only on per-file averages (`bench/benchmark.py` lines
350-385). -/
theorem C2_overall_is_mean_of_per_file_means (tests : List Bench.SummaryTest) :
    (∀ g t p, (g, t, p) ∈ Bench.jsonl_results [] tests →
        t = Bench.groupTotal tests g ∧ 0 < t ∧
          (p : ℚ) / (t : ℚ) = Bench.meanQ (Bench.fileVerdicts tests g)) ∧
      Bench.new_overall_score (Bench.jsonl_results [] tests) =
        Bench.meanQ ((Bench.jsonl_results [] tests).map
          (fun e => Bench.meanQ (Bench.fileVerdicts tests e.1))) ∧
      Bench.new_overall_score (Bench.jsonl_results [] Bench.C2ex) ≠
        Bench.meanQ (Bench.C2ex.map (fun t => if t.2 = some true then (1 : ℚ) else 0)) := by
  refine ⟨fun g t p hmem => jsonl_entry_char tests g t p hmem, ?_, ?_⟩
  · have hpos : ∀ e ∈ Bench.jsonl_results [] tests, 0 < e.2.1 := by
      intro e he
      exact (jsonl_entry_char tests e.1 e.2.1 e.2.2 he).2.1
    have hfilter : (Bench.jsonl_results [] tests).filter (fun e => 0 < e.2.1) =
        Bench.jsonl_results [] tests := by
      apply List.filter_eq_self.mpr
      intro e he
      exact decide_eq_true (hpos e he)
    have hrates : Bench.jsonl_pass_rates (Bench.jsonl_results [] tests) =
        (Bench.jsonl_results [] tests).map
          (fun e => Bench.meanQ (Bench.fileVerdicts tests e.1)) := by
      rw [Bench.jsonl_pass_rates, hfilter]
      apply List.map_congr_left
      intro e he
      exact (jsonl_entry_char tests e.1 e.2.1 e.2.2 he).2.2
    rw [Bench.new_overall_score, hrates, Bench.meanQ]
  · have hres : Bench.jsonl_results [] Bench.C2ex =
        [("a.jsonl", 1, 1), ("b.jsonl", 3, 0)] := by
      simp [Bench.jsonl_results, Bench.dictFold, Bench.C2ex, Bench.bumpAssoc, Bench.passInc]
    rw [hres]
    rw [Bench.new_overall_score, Bench.jsonl_pass_rates, Bench.C2ex, Bench.meanQ]
    norm_num
    simp

/-- Witness for C2 at a concrete input: the single group `a.jsonl` of
`C2ex` has one test, one pass, and per-file score `1`. -/
theorem C2_overall_is_mean_of_per_file_means_witness :
    1 = Bench.groupTotal Bench.C2ex "a.jsonl" ∧ 0 < 1 ∧
      ((1 : ℚ) / (1 : ℚ) = Bench.meanQ (Bench.fileVerdicts Bench.C2ex "a.jsonl")) := by
  refine (C2_overall_is_mean_of_per_file_means Bench.C2ex).1 "a.jsonl" 1 1 ?_
  have hres : Bench.jsonl_results [] Bench.C2ex =
      [("a.jsonl", 1, 1), ("b.jsonl", 3, 0)] := by
    simp [Bench.jsonl_results, Bench.dictFold, Bench.C2ex, Bench.bumpAssoc, Bench.passInc]
  rw [hres]
  simp

theorem foldl_append_singleton {α β : Type} (val : α → β) (l : List α) :
    ∀ acc : List β, l.foldl (fun acc t => acc ++ [val t]) acc = acc ++ l.map val := by
  induction l with
  | nil => intro acc; simp
  | cons t ts ih =>
      intro acc
      rw [List.foldl_cons, ih, List.map_cons]
      simp

theorem test_type_breakdown_dlookup (tests : List Bench.KindTest) (ty : String) :
    Bench.dlookup ty (Bench.test_type_breakdown tests) =
      if tests.filter (fun t => t.1 = ty) = [] then none
      else
        some ((tests.filter (fun t => t.1 = ty)).map
          (fun t => Bench.test_avg (Bench.runRepeats t.2))) := by
  rw [Bench.test_type_breakdown, dictFold_lookup]
  have hnone : Bench.dlookup ty ([] : List (String × List ℚ)) = none := rfl
  rw [hnone]
  cases h : tests.filter (fun t => t.1 = ty) with
  | nil => simp
  | cons t l =>
      simp only []
      rw [foldl_append_singleton (fun t => Bench.test_avg (Bench.runRepeats t.2)) l]
      simp

theorem kind_entry_char (tests : List Bench.KindTest) (ty : String) (l : List ℚ)
    (hmem : (ty, l) ∈ Bench.test_type_breakdown tests) :
    l = (tests.filter (fun t => t.1 = ty)).map
      (fun t => Bench.test_avg (Bench.runRepeats t.2)) := by
  have hnodup : ((Bench.test_type_breakdown tests).map Prod.fst).Nodup := by
    rw [Bench.test_type_breakdown]
    exact nodup_keys_dictFold _ _ _ tests [] (by simp)
  have hlook := dlookup_of_mem_nodup hnodup hmem
  rw [test_type_breakdown_dlookup] at hlook
  by_cases hf : tests.filter (fun t => t.1 = ty) = []
  · rw [if_pos hf] at hlook
    exact absurd hlook (by simp)
  · rw [if_neg hf] at hlook
    exact (Option.some.inj hlook).symm

/-- Claim C10: each per-kind breakdown entry collects the fractional
per-repeat pass ratios `test_avg` of that kind's tests, and the printed
per-kind value is (100 times) their arithmetic mean — not the mean of the
0/1 majority verdicts, from which it differs on the concrete run `C10ex`
(one `order` test passing 2 of 3 repeats: mean ratio `2/3`, verdict mean
`1`) (`bench/benchmark.py` lines 145-153 and 398-401). -/
theorem C10_breakdown_means_fractional_ratios (tests : List Bench.KindTest) :
    (∀ ty l, (ty, l) ∈ Bench.test_type_breakdown tests →
        l = (tests.filter (fun t => t.1 = ty)).map
            (fun t => Bench.test_avg (Bench.runRepeats t.2)) ∧
          Bench.ttype_avg l = 100 * Bench.meanQ l) ∧
      Bench.meanQ ((Bench.C10ex.filter (fun t => t.1 = "order")).map
          (fun t => Bench.test_avg (Bench.runRepeats t.2))) ≠
        Bench.kind_verdict_rate Bench.C10ex "order" := by
  constructor
  · intro ty l hmem
    refine ⟨kind_entry_char tests ty l hmem, ?_⟩
    rw [Bench.ttype_avg, Bench.meanQ]
    by_cases h : l = []
    · simp [h]
    · rw [if_neg h, if_neg h]
      ring
  · have havg : Bench.test_avg (Bench.runRepeats
        [Bench.RepeatOutcome.runPass, Bench.RepeatOutcome.runPass,
          Bench.RepeatOutcome.runFail "x"]) = (2 : ℚ) / 3 := by
      rw [Bench.test_avg, Bench.runRepeats_num_repeats, Bench.runRepeats_repeat_passes]
      simp [List.countP_cons]
    have hpassed : Bench.final_passed (Bench.runRepeats
        [Bench.RepeatOutcome.runPass, Bench.RepeatOutcome.runPass,
          Bench.RepeatOutcome.runFail "x"]) = true := by
      rw [Bench.final_passed, decide_eq_true_iff, havg]
      norm_num
    rw [Bench.kind_verdict_rate]
    have hfil : Bench.C10ex.filter (fun t => t.1 = "order") = Bench.C10ex := by
      simp [Bench.C10ex]
    rw [hfil]
    simp only [Bench.C10ex, List.map_cons, List.map_nil, hpassed, if_true]
    rw [havg]
    simp [Bench.meanQ]
    try norm_num

/-- Witness for C10 at a concrete input: the `order` entry of the
breakdown of `C10ex` is the list of its fractional pass ratios. -/
theorem C10_breakdown_means_fractional_ratios_witness :
    [Bench.test_avg (Bench.runRepeats
        [Bench.RepeatOutcome.runPass, Bench.RepeatOutcome.runPass,
          Bench.RepeatOutcome.runFail "x"])] =
        (Bench.C10ex.filter (fun t => t.1 = "order")).map
          (fun t => Bench.test_avg (Bench.runRepeats t.2)) ∧
      Bench.ttype_avg
          [Bench.test_avg (Bench.runRepeats
            [Bench.RepeatOutcome.runPass, Bench.RepeatOutcome.runPass,
              Bench.RepeatOutcome.runFail "x"])] =
        100 * Bench.meanQ
          [Bench.test_avg (Bench.runRepeats
            [Bench.RepeatOutcome.runPass, Bench.RepeatOutcome.runPass,
              Bench.RepeatOutcome.runFail "x"])] := by
  refine (C10_breakdown_means_fractional_ratios Bench.C10ex).1 "order" _ ?_
  simp [Bench.test_type_breakdown, Bench.dictFold, Bench.C10ex, Bench.bumpAssoc]

theorem jsonl_entry_passes (candidate_errors : List String) (tests : List Bench.SummaryTest)
    (g : String) (t p : Nat)
    (hmem : (g, t, p) ∈ Bench.jsonl_results candidate_errors tests) :
    p = Bench.groupPassed candidate_errors tests g := by
  have hnodup : ((Bench.jsonl_results candidate_errors tests).map Prod.fst).Nodup := by
    rw [Bench.jsonl_results]
    exact nodup_keys_dictFold _ _ _ tests [] (by simp)
  have hlook := dlookup_of_mem_nodup hnodup hmem
  rw [jsonl_results_dlookup] at hlook
  by_cases hf : tests.filter (fun x => x.1 = g) = []
  · rw [if_pos hf] at hlook
    exact absurd hlook (by simp)
  · rw [if_neg hf] at hlook
    exact (congrArg (fun q => q.2) (Option.some.inj hlook)).symm

theorem score_zero_of_candidate_errors (candidate_errors : List String)
    (tests : List Bench.SummaryTest) (hne : candidate_errors ≠ []) :
    Bench.new_overall_score (Bench.jsonl_results candidate_errors tests) = 0 := by
  rw [Bench.new_overall_score]
  by_cases hr : Bench.jsonl_pass_rates (Bench.jsonl_results candidate_errors tests) = []
  · rw [if_pos hr]
  · rw [if_neg hr]
    have hsum : (Bench.jsonl_pass_rates (Bench.jsonl_results candidate_errors tests)).sum = 0 := by
      apply List.sum_eq_zero
      intro x hx
      rw [Bench.jsonl_pass_rates] at hx
      obtain ⟨e, he, hxe⟩ := List.mem_map.mp hx
      have hem : e ∈ Bench.jsonl_results candidate_errors tests := List.mem_of_mem_filter he
      have hp : e.2.2 = Bench.groupPassed candidate_errors tests e.1 :=
        jsonl_entry_passes candidate_errors tests e.1 e.2.1 e.2.2 hem
      have hzero : Bench.groupPassed candidate_errors tests e.1 = 0 := by
        rw [Bench.groupPassed]
        apply List.countP_eq_zero.mpr
        intro a _
        simp [hne]
      rw [← hxe, hp, hzero]
      simp
    rw [hsum]
    simp

/-- Claim C3: whenever some test references a page with zero repeat
output files, `evaluate_candidate` records a candidate-level error
(whether or not `force` is set: either the per-pdf discovery error of
lines 69-72 or the per-page error of lines 95-100 of
`bench/benchmark.py`), and when `force` is not set the overall score the
final summary reports for the candidate is exactly `0`. -/
theorem C3_missing_page_error_and_zero_score (force : Bool) (tests : List Bench.BenchTest)
    (pdf_basenames : List String) (files : List Bench.MdFile) (t0 : Bench.BenchTest)
    (ht0 : t0 ∈ tests) (hmiss : Bench.page_md_files files t0.pdf t0.page = []) :
    Bench.candidate_errors force tests pdf_basenames files ≠ [] ∧
      (force = false →
        ∀ verdict : Bench.BenchTest → Option Bool,
          Bench.final_reported_score force tests pdf_basenames files verdict = 0) := by
  have herr : Bench.candidate_errors force tests pdf_basenames files ≠ [] := by
    rw [Bench.candidate_errors]
    by_cases hpdf : Bench.pdf_missing_errors force pdf_basenames files = []
    · rw [if_pos hpdf]
      have hmsg : ("Candidate is missing MD repeats for " ++ t0.pdf ++ " page " ++
          toString t0.page) ∈ (tests.map (Bench.process_test_errors files)).flatten := by
        apply List.mem_flatten.mpr
        refine ⟨Bench.process_test_errors files t0, List.mem_map.mpr ⟨t0, ht0, rfl⟩, ?_⟩
        rw [Bench.process_test_errors, if_pos hmiss]
        simp
      exact List.ne_nil_of_mem hmsg
    · rw [if_neg hpdf]
      exact hpdf
  refine ⟨herr, fun _ verdict => ?_⟩
  rw [Bench.final_reported_score]
  exact score_zero_of_candidate_errors _ _ herr

/-- Witness for C3 at a concrete input: one test on page 1 of `doc.pdf`
and a candidate with no output files at all. -/
theorem C3_missing_page_error_and_zero_score_witness :
    Bench.candidate_errors false [Bench.C3test] ["doc.pdf"] [] ≠ [] ∧
      Bench.final_reported_score false [Bench.C3test] ["doc.pdf"] [] Bench.C3verdict = 0 := by
  have h := C3_missing_page_error_and_zero_score false [Bench.C3test] ["doc.pdf"] []
    Bench.C3test (by simp) (by rfl)
  exact ⟨h.1, h.2 rfl Bench.C3verdict⟩

/-- Claim C8: `main` terminates with a non-zero exit code when the
recursive pdf glob finds no source documents, and likewise when `--dir`
is a directory and its `.jsonl` glob finds no assertion-set files
(`bench/benchmark.py` lines 199-220). -/
theorem C8_exit_nonzero_without_inputs (pdf_folder_exists : Bool) (pdf_files : List String)
    (dir_is_file : Bool) (args_dir : String) (jsonl_glob : List String)
    (h : pdf_files = [] ∨ (dir_is_file = false ∧ jsonl_glob = [])) :
    ∃ c : Nat, Bench.main_early_checks pdf_folder_exists pdf_files dir_is_file args_dir
        jsonl_glob = .error c ∧ c ≠ 0 := by
  refine ⟨1, ?_, one_ne_zero⟩
  rw [Bench.main_early_checks]
  by_cases hex : pdf_folder_exists = false
  · rw [if_pos hex]
  · rw [if_neg hex]
    rcases h with h | ⟨h1, h2⟩
    · rw [if_pos h]
    · by_cases hp : pdf_files = []
      · rw [if_pos hp]
      · rw [if_neg hp]
        simp [h1, h2]

/-- Witness for C8 at a concrete input: an existing pdf folder with pdfs
but an empty `.jsonl` glob on a directory argument. -/
theorem C8_exit_nonzero_without_inputs_witness :
    ∃ c : Nat, Bench.main_early_checks true ["doc.pdf"] false "data" [] = .error c ∧ c ≠ 0 :=
  C8_exit_nonzero_without_inputs true ["doc.pdf"] false "data" [] (Or.inr ⟨rfl, rfl⟩)

theorem add_baselines_mem_mono (pdfs : List String) :
    ∀ (st : List Bench.LoadedTest × List (String × String)) (a : Bench.LoadedTest),
      a ∈ st.1 → a ∈ (Bench.add_baselines pdfs st).1 := by
  induction pdfs with
  | nil => intro st a ha; exact ha
  | cons p ps ih =>
      intro st a ha
      rw [Bench.add_baselines, List.foldl_cons]
      by_cases hc : st.1.any (fun t => decide (t.pdf = p ∧ t.type = "baseline")) = true
      · rw [if_pos hc]
        exact ih st a ha
      · rw [if_neg hc]
        exact ih _ a (List.mem_append_left _ ha)

theorem add_baselines_keeps_baseline_value (pdfs : List String) :
    ∀ (st : List Bench.LoadedTest × List (String × String)) (k : String),
      Bench.dlookup k st.2 = some "baseline" →
      Bench.dlookup k (Bench.add_baselines pdfs st).2 = some "baseline" := by
  induction pdfs with
  | nil => intro st k hk; exact hk
  | cons p ps ih =>
      intro st k hk
      rw [Bench.add_baselines, List.foldl_cons]
      by_cases hc : st.1.any (fun t => decide (t.pdf = p ∧ t.type = "baseline")) = true
      · rw [if_pos hc]
        exact ih st k hk
      · rw [if_neg hc]
        apply ih
        show Bench.dlookup k (Bench.setAssoc (p ++ "_baseline") "baseline" st.2) =
          some "baseline"
        rw [Bench.setAssoc]
        by_cases hkey : (p ++ "_baseline") = k
        · subst hkey
          rw [dlookup_bumpAssoc_same]
          cases Bench.dlookup (p ++ "_baseline") st.2 <;> rfl
        · rw [dlookup_bumpAssoc_ne _ _ _ _ _ hkey]
          exact hk

theorem add_baselines_synthesizes (pdfs : List String) :
    ∀ (st : List Bench.LoadedTest × List (String × String)) (pdf : String),
      pdf ∈ pdfs →
      (∀ t ∈ st.1, ¬(t.pdf = pdf ∧ t.type = "baseline")) →
      Bench.baselineTest pdf ∈ (Bench.add_baselines pdfs st).1 ∧
        Bench.dlookup (pdf ++ "_baseline") (Bench.add_baselines pdfs st).2 =
          some "baseline" := by
  induction pdfs with
  | nil => intro st pdf hpdf; simp at hpdf
  | cons p ps ih =>
      intro st pdf hpdf hnone
      rw [Bench.add_baselines, List.foldl_cons]
      by_cases hp : p = pdf
      · subst hp
        have hc : st.1.any (fun t => decide (t.pdf = p ∧ t.type = "baseline")) = false := by
          apply List.any_eq_false.mpr
          intro t ht
          simpa using hnone t ht
        rw [hc]
        simp only [Bool.false_eq_true, if_false]
        constructor
        · exact add_baselines_mem_mono ps _ _
            (List.mem_append_right _ (List.mem_singleton.mpr rfl))
        · apply add_baselines_keeps_baseline_value
          show Bench.dlookup (p ++ "_baseline")
              (Bench.setAssoc (p ++ "_baseline") "baseline" st.2) = some "baseline"
          rw [Bench.setAssoc, dlookup_bumpAssoc_same]
          cases Bench.dlookup (p ++ "_baseline") st.2 <;> rfl
      · have hps : pdf ∈ ps := by
          rcases List.mem_cons.mp hpdf with h | h
          · exact absurd h.symm hp
          · exact h
        by_cases hc : st.1.any (fun t => decide (t.pdf = p ∧ t.type = "baseline")) = true
        · rw [if_pos hc]
          exact ih st pdf hps hnone
        · rw [if_neg hc]
          apply ih _ pdf hps
          intro t ht
          rcases List.mem_append.mp ht with h | h
          · exact hnone t h
          · have : t = Bench.baselineTest p := List.mem_singleton.mp h
            subst this
            intro hcontra
            exact hp hcontra.1

/-- Claim C9: for every source pdf with no baseline assertion among the
loaded tests, the synthesis loop of `main` appends the baseline test with
id `<pdf>_baseline` targeting page 1 and records `"baseline"` as its
provenance group, and the `--skip_baseline` filter, which runs after the
synthesis, leaves no test of type `"baseline"` — synthesized ones
included (`bench/benchmark.py` lines 235-238 and 247-248). -/
theorem C9_baseline_synthesis_and_skip (pdfs : List String) (tests : List Bench.LoadedTest)
    (tj : List (String × String)) (pdf : String) (hpdf : pdf ∈ pdfs)
    (hnone : ∀ t ∈ tests, ¬(t.pdf = pdf ∧ t.type = "baseline")) :
    Bench.baselineTest pdf ∈ (Bench.add_baselines pdfs (tests, tj)).1 ∧
      Bench.dlookup (pdf ++ "_baseline") (Bench.add_baselines pdfs (tests, tj)).2 =
        some "baseline" ∧
      ∀ t ∈ Bench.apply_skip_baseline true (Bench.add_baselines pdfs (tests, tj)).1,
        t.type ≠ "baseline" := by
  obtain ⟨h1, h2⟩ := add_baselines_synthesizes pdfs (tests, tj) pdf hpdf hnone
  refine ⟨h1, h2, ?_⟩
  intro t ht
  rw [Bench.apply_skip_baseline, if_pos rfl] at ht
  have hd := (List.mem_filter.mp ht).2
  simpa using hd

/-- Witness for C9 at a concrete input: one pdf and no loaded tests. -/
theorem C9_baseline_synthesis_and_skip_witness :
    Bench.baselineTest "doc.pdf" ∈ (Bench.add_baselines ["doc.pdf"] ([], [])).1 ∧
      Bench.dlookup ("doc.pdf" ++ "_baseline")
          (Bench.add_baselines ["doc.pdf"] ([], [])).2 = some "baseline" := by
  have h := C9_baseline_synthesis_and_skip ["doc.pdf"] [] [] "doc.pdf"
    (List.mem_singleton.mpr rfl) (by intro t ht; simp at ht)
  exact ⟨h.1, h.2.1⟩

theorem lex_cons_same_iff (x : Char) (xs ys : List Char) :
    List.Lex (· < ·) (x :: xs) (x :: ys) ↔ List.Lex (· < ·) xs ys := by
  constructor
  · intro h
    cases h with
    | cons h => exact h
    | rel h => exact absurd h (lt_irrefl x)
  · exact List.Lex.cons

theorem lt_append_same_iff (p a b : List Char) : p ++ a < p ++ b ↔ a < b := by
  induction p with
  | nil => exact Iff.rfl
  | cons c p ih =>
      constructor
      · intro h
        have h' : List.Lex (· < ·) (c :: (p ++ a)) (c :: (p ++ b)) := h
        exact ih.mp ((lex_cons_same_iff c _ _).mp h')
      · intro h
        exact (lex_cons_same_iff c (p ++ a) (p ++ b)).mpr (ih.mpr h)

theorem le_append_same_iff (p a b : List Char) : p ++ a ≤ p ++ b ↔ a ≤ b := by
  rw [← not_lt, ← not_lt, lt_append_same_iff]

theorem takeWhile_until_slash (l r : List Char) (h : ∀ c ∈ l, c ≠ '/') :
    (l ++ '/' :: r).takeWhile (fun c => c != '/') = l := by
  induction l with
  | nil => simp
  | cons c l ih =>
      have hc : c ≠ '/' := h c (List.mem_cons_self c l)
      rw [List.cons_append, List.takeWhile_cons]
      simp only [bne_iff_ne, ne_eq, hc, not_false_eq_true, if_true]
      rw [ih (fun c hcl => h c (List.mem_cons_of_mem _ hcl))]

theorem os_basename_path_join (dir e : List Char) (h : ∀ c ∈ e, c ≠ '/') :
    Bench.os_basename (Bench.path_join dir e) = e := by
  rw [Bench.os_basename, Bench.path_join]
  have hrev : (dir ++ '/' :: e).reverse = e.reverse ++ '/' :: dir.reverse := by
    simp
  rw [hrev, takeWhile_until_slash _ _ (fun c hc => h c (List.mem_reverse.mp hc))]
  exact List.reverse_reverse e

theorem decide_le_trans_lc (a b c : List Char) (hab : decide (a ≤ b) = true)
    (hbc : decide (b ≤ c) = true) : decide (a ≤ c) = true :=
  decide_eq_true (le_trans (of_decide_eq_true hab) (of_decide_eq_true hbc))

theorem decide_le_total_lc (a b : List Char) :
    (decide (a ≤ b) || decide (b ≤ a)) = true := by
  rcases le_total a b with h | h <;> simp [h]

theorem decide_le_trans_str (a b c : String) (hab : decide (a ≤ b) = true)
    (hbc : decide (b ≤ c) = true) : decide (a ≤ c) = true :=
  decide_eq_true (le_trans (of_decide_eq_true hab) (of_decide_eq_true hbc))

theorem decide_le_total_str (a b : String) :
    (decide (a ≤ b) || decide (b ≤ a)) = true := by
  rcases le_total a b with h | h <;> simp [h]

theorem sorted_summary_candidate_names (dir : List Char) (isDir : List Char → Bool)
    (entries : List (List Char)) (h : ∀ e ∈ entries, ∀ c ∈ e, c ≠ '/') :
    List.Sorted (· ≤ ·) (Bench.summary_candidate_names dir isDir entries) := by
  rw [Bench.summary_candidate_names, Bench.candidate_folders]
  have hsorted := List.sorted_mergeSort decide_le_trans_lc decide_le_total_lc
    ((entries.filter (fun e => isDir e && decide (e ≠ Bench.pdfsName))).map
      (Bench.path_join dir))
  rw [List.Sorted, List.pairwise_map]
  refine List.Pairwise.imp_of_mem ?_ hsorted
  intro a b ha hb hab
  have hmem : ∀ x, x ∈ ((entries.filter (fun e => isDir e && decide (e ≠ Bench.pdfsName))).map
      (Bench.path_join dir)).mergeSort (fun a b => decide (a ≤ b)) →
      ∃ e, (∀ c ∈ e, c ≠ '/') ∧ x = Bench.path_join dir e := by
    intro x hx
    have hx' := (List.mergeSort_perm _ _).mem_iff.mp hx
    obtain ⟨e, he, hxe⟩ := List.mem_map.mp hx'
    exact ⟨e, h e (List.mem_of_mem_filter he), hxe.symm⟩
  obtain ⟨e1, he1, ha1⟩ := hmem a ha
  obtain ⟨e2, he2, hb2⟩ := hmem b hb
  subst ha1
  subst hb2
  rw [os_basename_path_join dir e1 he1, os_basename_path_join dir e2 he2]
  have hle : Bench.path_join dir e1 ≤ Bench.path_join dir e2 := of_decide_eq_true hab
  rw [Bench.path_join, Bench.path_join, List.append_cons dir '/' e1,
    List.append_cons dir '/' e2] at hle
  exact (le_append_same_iff (dir ++ ['/']) e1 e2).mp hle

theorem mem_breakdown_keys_iff (tests : List Bench.KindTest) (g : String) :
    g ∈ (Bench.test_type_breakdown tests).map Prod.fst ↔ ∃ t ∈ tests, t.1 = g := by
  have h1 := dlookup_eq_none_iff g (Bench.test_type_breakdown tests)
  rw [test_type_breakdown_dlookup] at h1
  constructor
  · intro hg
    by_cases hf : tests.filter (fun t => t.1 = g) = []
    · rw [if_pos hf] at h1
      exact absurd hg (h1.mp rfl)
    · obtain ⟨x, hx⟩ := List.exists_mem_of_ne_nil _ hf
      have hx' := List.mem_filter.mp hx
      exact ⟨x, hx'.1, of_decide_eq_true hx'.2⟩
  · intro ⟨t, ht, htg⟩
    have hf : tests.filter (fun x => x.1 = g) ≠ [] := by
      intro hnil
      have := List.filter_eq_nil_iff.mp hnil t ht
      simp [htg] at this
    rw [if_neg hf] at h1
    by_contra hg
    exact absurd (h1.mpr hg) (by simp)

theorem sorted_displayed_kinds (tests : List Bench.KindTest) :
    List.Sorted (· ≤ ·) (Bench.displayed_kinds tests) := by
  rw [Bench.displayed_kinds, List.Sorted]
  exact (List.sorted_mergeSort decide_le_trans_str decide_le_total_str _).imp
    of_decide_eq_true

theorem displayed_kinds_perm_invariant (tests tests' : List Bench.KindTest)
    (h : tests.Perm tests') : Bench.displayed_kinds tests = Bench.displayed_kinds tests' := by
  have hn1 : ((Bench.test_type_breakdown tests).map Prod.fst).Nodup := by
    rw [Bench.test_type_breakdown]
    exact nodup_keys_dictFold _ _ _ tests [] (by simp)
  have hn2 : ((Bench.test_type_breakdown tests').map Prod.fst).Nodup := by
    rw [Bench.test_type_breakdown]
    exact nodup_keys_dictFold _ _ _ tests' [] (by simp)
  have hkeys : ((Bench.test_type_breakdown tests).map Prod.fst).Perm
      ((Bench.test_type_breakdown tests').map Prod.fst) := by
    rw [List.perm_ext_iff_of_nodup hn1 hn2]
    intro g
    rw [mem_breakdown_keys_iff, mem_breakdown_keys_iff]
    constructor
    · intro ⟨t, ht, htg⟩
      exact ⟨t, h.mem_iff.mp ht, htg⟩
    · intro ⟨t, ht, htg⟩
      exact ⟨t, h.mem_iff.mpr ht, htg⟩
  apply List.eq_of_perm_of_sorted ?_ (sorted_displayed_kinds tests) (sorted_displayed_kinds tests')
  rw [Bench.displayed_kinds, Bench.displayed_kinds]
  exact ((List.mergeSort_perm _ _).trans hkeys).trans (List.mergeSort_perm _ _).symm

/-- Claim C7: the final textual summary is deterministically ordered —
the candidate names appear in nondecreasing sorted order (sorting the
joined folder paths sorts the names, since all share the input-folder
position), the per-kind breakdown lines of a candidate appear in
nondecreasing sorted kind order, and the breakdown line order is
unchanged under any permutation of the result-collection order, so it
never depends on concurrent completion order (`bench/benchmark.py` lines
258-272, 348 and 398-401). -/
theorem C7_deterministic_summary_order (dir : List Char) (isDir : List Char → Bool)
    (entries : List (List Char)) (h : ∀ e ∈ entries, ∀ c ∈ e, c ≠ '/')
    (tests tests' : List Bench.KindTest) (hperm : tests.Perm tests') :
    List.Sorted (· ≤ ·) (Bench.summary_candidate_names dir isDir entries) ∧
      List.Sorted (· ≤ ·) (Bench.displayed_kinds tests) ∧
      Bench.displayed_kinds tests = Bench.displayed_kinds tests' :=
  ⟨sorted_summary_candidate_names dir isDir entries h, sorted_displayed_kinds tests,
    displayed_kinds_perm_invariant tests tests' hperm⟩

/-- Witness for C7 at a concrete input: two candidate folders listed out
of order and one candidate's per-kind results collected in two different
completion orders. -/
theorem C7_deterministic_summary_order_witness :
    List.Sorted (· ≤ ·)
        (Bench.summary_candidate_names ['d'] (fun _ => true) [['b'], ['a']]) ∧
      List.Sorted (· ≤ ·) (Bench.displayed_kinds [("b", []), ("a", [])]) ∧
      Bench.displayed_kinds [("b", []), ("a", [])] =
        Bench.displayed_kinds [("a", []), ("b", [])] :=
  C7_deterministic_summary_order ['d'] (fun _ => true) [['b'], ['a']]
    (by intro e he c hc; fin_cases he <;> fin_cases hc <;> decide)
    [("b", []), ("a", [])] [("a", []), ("b", [])]
    (List.Perm.swap ("a", []) ("b", []) [])

theorem lev_self (xs : List Char) : Bench.lev xs xs = 0 := by
  induction xs with
  | nil => simp [Bench.lev]
  | cons x xs ih => simp [Bench.lev, ih]

theorem mem_substrs (p a b : List Char) : p ∈ Bench.substrs (a ++ (p ++ b)) := by
  rw [Bench.substrs]
  apply List.mem_flatMap.mpr
  exact ⟨p ++ b, (List.mem_tails _ _).mpr ⟨a, rfl⟩, (List.mem_inits _ _).mpr ⟨b, rfl⟩⟩

theorem normalize_append (cs : Bool) (x y : List Char) :
    Bench.normalize cs (x ++ y) = Bench.normalize cs x ++ Bench.normalize cs y := by
  rw [Bench.normalize, Bench.normalize, Bench.normalize]
  by_cases h : cs <;> simp [h]

/-- Claim C5, counterexample: the text `"b"` of the presence assertion
`C5assert` (`max_diffs = 0`, `first_n = 1`) occurs verbatim as a
contiguous substring of the candidate text `"ab"`, yet `evaluate` fails,
because the `first_n` window cuts the comparison down to `"a"`. -/
theorem C5_windowed_counterexample :
    ['a'] ++ Bench.C5assert.text ++ [] = ['a', 'b'] ∧
      Bench.presence_eval Bench.C5assert ['a', 'b'] = false := by
  constructor
  · rfl
  · rw [Bench.presence_eval]
    simp [Bench.C5assert, Bench.window, Bench.normalize, Bench.substrs, Bench.lev,
      List.tails]

/-- Claim C5 as amended: for a presence assertion with any edit-distance
budget `max_diffs = d` and no `first_n`/`last_n` window, if the
assertion's text occurs verbatim as a contiguous substring of the
candidate text then `evaluate` passes (the windowed case fails this, see
the counterexample). -/
theorem C5_verbatim_presence_passes (a : Bench.PresenceAssertion)
    (cand x y : List Char) (h1 : a.first_n = none) (h2 : a.last_n = none)
    (hocc : cand = x ++ a.text ++ y) :
    Bench.presence_eval a cand = true := by
  rw [Bench.presence_eval]
  simp only [h1, h2]
  have hwin : Bench.window none none cand = cand := rfl
  rw [hwin, hocc]
  apply List.any_eq_true.mpr
  refine ⟨Bench.normalize a.case_sensitive a.text, ?_, ?_⟩
  · have hsplit : Bench.normalize a.case_sensitive (x ++ a.text ++ y) =
        Bench.normalize a.case_sensitive x ++
          (Bench.normalize a.case_sensitive a.text ++
            Bench.normalize a.case_sensitive y) := by
      rw [List.append_assoc, normalize_append, normalize_append]
    rw [hsplit]
    exact mem_substrs _ _ _
  · simp [lev_self]

/-- Witness for the amended C5 at a concrete input: the unwindowed
assertion `C5plain` (`text = "b"`, `max_diffs = 0`) passes on the
candidate text `"ab"`. -/
theorem C5_verbatim_presence_passes_witness :
    Bench.presence_eval Bench.C5plain ['a', 'b'] = true :=
  C5_verbatim_presence_passes Bench.C5plain ['a', 'b'] ['a'] [] rfl rfl rfl
